import Mathlib

/-!
Verification of the screen-mirroring signaling core.

This file gives a shallow embedding of the resilient control-channel client
(rtc-signal shared signaling.js, class SignalingClient), the relay room
multiplexer (rtc-signal server), the receiver-app copy of the client, and the
sender orchestrator (ScreenSender), and proves or refutes the frozen claims
about them.

Modelling conventions:
- the single-threaded event loop is modelled by a step function on an explicit
  world state; every transport callback runs to completion inside one step;
- each WebSocket object ever created by the client is kept in a list, indexed
  by creation order, because the JavaScript handlers stay attached to their
  socket even after the client replaces its current handle;
- millisecond delays and jitter are rationals (Math.random() * 1000 produces
  an arbitrary value in [0, 1000));
- maxRetries is an Option Nat, none standing for the default Infinity.
-/

namespace ScreenMirroring

/-- Lifecycle phase of one WebSocket transport object.  The two closed
phases distinguish a socket whose close event is still queued behind the
error event from one whose close handler has already run, because other
event-loop work can interleave between the two deliveries. -/
inductive SockPhase
  | connecting
  | opened
  | closing
  | closedPendingEvt
  | closedDone
  deriving DecidableEq, Repr

/-- Numeric readyState of a socket phase, matching the WebSocket constants
CONNECTING = 0, OPEN = 1, CLOSING = 2, CLOSED = 3. -/
def readyStateNum : SockPhase → ℕ
  | .connecting => 0
  | .opened => 1
  | .closing => 2
  | .closedPendingEvt => 3
  | .closedDone => 3

/-- Events the SignalingClient delivers to its owner. -/
inductive Emit
  | openedEvt
  | reconnectedEvt
  | closedEvt
  | errorEvt
  | reconnecting (attempt : ℕ) (delayMs : ℚ)
  | maxRetriesExhausted
  deriving DecidableEq, Repr

/-- Constructor options of SignalingClient.  maxRetries is none for the
default Infinity. -/
structure ClientCfg where
  initialRetryDelay : ℚ
  maxRetryDelay : ℚ
  retryMultiplier : ℚ
  maxRetries : Option ℕ
  deriving DecidableEq, Repr

/-- Default option values from the constructor. -/
def defaultCfg : ClientCfg :=
  { initialRetryDelay := 1000
    maxRetryDelay := 30000
    retryMultiplier := 2
    maxRetries := none }

/-- Mutable fields of a SignalingClient instance.  ws holds the index of the
current socket in the world socket list, none when this.ws is null. -/
structure SignalingClient where
  retryDelay : ℚ
  retryCount : ℕ
  isConnecting : Bool
  shouldReconnect : Bool
  ws : Option ℕ
  deriving DecidableEq, Repr

/-- One client instance together with its environment: every socket it ever
created, the number of pending reconnect timers, and the log of events it
emitted to its owner. -/
structure World where
  cfg : ClientCfg
  client : SignalingClient
  sockets : List SockPhase
  timers : ℕ
  log : List Emit
  deriving DecidableEq, Repr

/-- Phase of the socket currently referenced by this.ws, if any. -/
def wsPhase (w : World) : Option SockPhase :=
  match w.client.ws with
  | none => none
  | some i => w.sockets.get? i

/-- The JavaScript test this.retryCount >= this.maxRetries, where the default
maxRetries is Infinity and the comparison is then always false. -/
def retryLimitReached (maxRetries : Option ℕ) (count : ℕ) : Bool :=
  match maxRetries with
  | none => false
  | some m => m ≤ count

/-- SignalingClient.connect: a no-op when already connecting or when the
current socket is OPEN; otherwise sets isConnecting and creates a fresh
WebSocket, which becomes the current one (the previous handle, if any, is
orphaned but its handlers stay attached). -/
def connect (w : World) : World :=
  if w.client.isConnecting = true ∨ wsPhase w = some .opened then w
  else
    { w with
      client := { w.client with isConnecting := true, ws := some w.sockets.length }
      sockets := w.sockets ++ [.connecting] }

/-- SignalingClient.scheduleReconnect: when the retry limit is reached, emit
maxRetriesExhausted and stop; otherwise bump the retry count, emit
reconnecting with the current delay, start a single-shot timer, and update the
delay to min(delay * multiplier + jitter, maxRetryDelay).  The jitter j is the
value of Math.random() * 1000 for this call. -/
def scheduleReconnect (j : ℚ) (w : World) : World :=
  if retryLimitReached w.cfg.maxRetries w.client.retryCount then
    { w with log := w.log ++ [.maxRetriesExhausted] }
  else
    { w with
      client := { w.client with
        retryCount := w.client.retryCount + 1
        retryDelay := min (w.client.retryDelay * w.cfg.retryMultiplier + j) w.cfg.maxRetryDelay }
      timers := w.timers + 1
      log := w.log ++ [.reconnecting (w.client.retryCount + 1) w.client.retryDelay] }

/-- Body of ws.onopen in the shared client (rtc-signal shared signaling.js):
clear isConnecting, reset retryDelay to the literal 1000 and retryCount to 0,
then test this.retryCount > 0 and call onReconnected when it holds, and call
onOpen.  The test reads the field after the reset, exactly as the source
does, so the reconnected branch is dead code. -/
def handleOpen (w : World) : World :=
  let c := { w.client with isConnecting := false, retryDelay := (1000 : ℚ), retryCount := 0 }
  let w1 : World := { w with client := c }
  let w2 : World :=
    if c.retryCount > 0 then { w1 with log := w1.log ++ [Emit.reconnectedEvt] } else w1
  { w2 with log := w2.log ++ [Emit.openedEvt] }

/-- Body of ws.onopen in the receiver-app copy of the client: it saves
wasReconnecting = retryCount > 0 before the reset, fires onReconnected when it
was set, and then always fires onOpen as well. -/
def handleOpenReceiver (w : World) : World :=
  let wasReconnecting := w.client.retryCount > 0
  let c := { w.client with isConnecting := false, retryDelay := (1000 : ℚ), retryCount := 0 }
  let w1 : World := { w with client := c }
  let w2 : World :=
    if wasReconnecting then { w1 with log := w1.log ++ [Emit.reconnectedEvt] } else w1
  { w2 with log := w2.log ++ [Emit.openedEvt] }

/-- Body of ws.onclose: clear isConnecting, notify the owner, and schedule a
reconnect when shouldReconnect is still set. -/
def handleClose (j : ℚ) (w : World) : World :=
  let w1 : World :=
    { w with client := { w.client with isConnecting := false }, log := w.log ++ [Emit.closedEvt] }
  if w1.client.shouldReconnect then scheduleReconnect j w1 else w1

/-- Body of ws.onerror: clear isConnecting and notify the owner; no
reconnect is scheduled here, only the close event does that. -/
def handleError (w : World) : World :=
  { w with client := { w.client with isConnecting := false }, log := w.log ++ [Emit.errorEvt] }

/-- The readyState transition of ws.close(): a connecting or open socket
starts the closing handshake, an already closing or closed one is unchanged. -/
def closePhase : SockPhase → SockPhase
  | .connecting => .closing
  | .opened => .closing
  | p => p

/-- Apply closePhase to the socket at index i, when it exists. -/
def closeSock (ss : List SockPhase) (i : ℕ) : List SockPhase :=
  match ss.get? i with
  | some p => ss.set i (closePhase p)
  | none => ss

/-- SignalingClient.close: clear shouldReconnect, close the current socket if
any, and drop the handle. -/
def close (w : World) : World :=
  let w1 : World := { w with client := { w.client with shouldReconnect := false } }
  match w1.client.ws with
  | none => w1
  | some i =>
      { w1 with client := { w1.client with ws := none }, sockets := closeSock w1.sockets i }

/-- Events the event loop can deliver to one client instance.  The app events
are calls of the public API; the socket events are transport callbacks for the
socket with the given index; timerFire runs one pending reconnect timer.
sockFail is the failure of a connection attempt: the readyState drops to
CLOSED and the error handler runs, while the close event stays queued until a
later sockCloseFire.  sockServerClose is the start of a close handshake on an
open socket (readyState CLOSING, no handler yet); sockClosed completes it and
runs the close handler.  Jitter values j feed any scheduleReconnect the close
handler performs. -/
inductive Ev
  | appConnect
  | appClose
  | timerFire
  | sockOpen (i : ℕ)
  | sockFail (i : ℕ)
  | sockCloseFire (i : ℕ) (j : ℚ)
  | sockServerClose (i : ℕ)
  | sockClosed (i : ℕ) (j : ℚ)
  deriving DecidableEq

/-- One step of the client event loop. -/
def step (w : World) : Ev → World
  | .appConnect => connect w
  | .appClose => close w
  | .timerFire =>
      if w.timers = 0 then w
      else
        let w1 : World := { w with timers := w.timers - 1 }
        if w1.client.shouldReconnect then connect w1 else w1
  | .sockOpen i =>
      if w.sockets.get? i = some .connecting then
        handleOpen { w with sockets := w.sockets.set i .opened }
      else w
  | .sockFail i =>
      if w.sockets.get? i = some .connecting then
        handleError { w with sockets := w.sockets.set i .closedPendingEvt }
      else w
  | .sockCloseFire i j =>
      if w.sockets.get? i = some .closedPendingEvt then
        handleClose j { w with sockets := w.sockets.set i .closedDone }
      else w
  | .sockServerClose i =>
      if w.sockets.get? i = some .opened then
        { w with sockets := w.sockets.set i .closing }
      else w
  | .sockClosed i j =>
      if w.sockets.get? i = some .closing then
        handleClose j { w with sockets := w.sockets.set i .closedDone }
      else w

/-- Run a list of events in order. -/
def run (w : World) : List Ev → World
  | [] => w
  | e :: es => run (step w e) es

/-- Freshly constructed client with the given options. -/
def initWorld (cfg : ClientCfg) : World :=
  { cfg := cfg
    client :=
      { retryDelay := cfg.initialRetryDelay
        retryCount := 0
        isConnecting := false
        shouldReconnect := true
        ws := none }
    sockets := []
    timers := 0
    log := [] }

/-- SignalingClient.getReadyState: the readyState of the current socket, or
CLOSED = 3 when this.ws is null. -/
def getReadyState (w : World) : ℕ :=
  match wsPhase w with
  | some p => readyStateNum p
  | none => 3

/-- SignalingClient.isConnected: this.ws exists and its readyState is OPEN. -/
def isConnected (w : World) : Bool :=
  match wsPhase w with
  | some .opened => true
  | _ => false

/-- Events appended to the log by running f on w. -/
def emitted (f : World → World) (w : World) : List Emit :=
  (f w).log.drop w.log.length

/-- Delays carried by the reconnecting events of a log, in emission order.
Each is the duration of the single-shot timer scheduled before the next
connection attempt. -/
def reconnectDelays (l : List Emit) : List ℚ :=
  l.filterMap fun e =>
    match e with
    | .reconnecting _ d => some d
    | _ => none

/-- Number of maxRetriesExhausted events in a log. -/
def exhaustedCount (l : List Emit) : ℕ :=
  (l.filter (· = Emit.maxRetriesExhausted)).length

/-- Number of sockets that are currently a connection attempt in flight:
still connecting or established. -/
def countInFlight (ss : List SockPhase) : ℕ :=
  (ss.filter (fun p => p = .connecting ∨ p = .opened)).length

example : (connect (initWorld defaultCfg)).sockets = [.connecting] := by decide
example : (step (initWorld defaultCfg) .appConnect).client.ws = some 0 := by decide

/-! ## Wire protocol and relay room multiplexer (rtc-signal server) -/

/-- Parsed wire messages.  Signal payloads are opaque to the core and are
modelled by naturals.  The wire field named to is called dest here because
to is reserved in Lean.  The constructor other stands for any message whose
type field matches neither join nor signal; the server ignores it. -/
inductive Msg
  | join (room role : String)
  | signal (room dest : String) (data : ℕ)
  | other
  deriving DecidableEq, Repr

/-- Generic association list lookup used for the rooms map, the role slots of
a room object, and the per-connection readyState table. -/
def alFind {κ ν : Type} [DecidableEq κ] : List (κ × ν) → κ → Option ν
  | [], _ => none
  | (k, v) :: rest, key => if k = key then some v else alFind rest key

/-- Generic association list overwrite-or-insert (JavaScript property or map
assignment). -/
def alSet {κ ν : Type} [DecidableEq κ] : List (κ × ν) → κ → ν → List (κ × ν)
  | [], key, value => [(key, value)]
  | (k, v) :: rest, key, value =>
      if k = key then (k, value) :: rest else (k, v) :: alSet rest key value

/-- Generic association list key removal (JavaScript delete). -/
def alDel {κ ν : Type} [DecidableEq κ] (l : List (κ × ν)) (key : κ) : List (κ × ν) :=
  l.filter fun p => ¬ p.1 = key

/-- A room object: role name to connection id, as stored in the rooms map. -/
abbrev Entry := List (String × ℕ)

/-- Relay state: the rooms map, the readyState of every connection the relay
knows about, and the ordered log of forwarded messages as pairs of receiving
connection and payload. -/
structure RelayState where
  rooms : List (String × Entry)
  ready : List (ℕ × ℕ)
  delivered : List (ℕ × ℕ)
  deriving DecidableEq, Repr

/-- Relay at process start: no rooms, no known connections, nothing sent. -/
def initRelay : RelayState :=
  { rooms := [], ready := [], delivered := [] }

/-- The expression rooms.get(room) with the or-else default of a fresh empty
object. -/
def roomsGet (rs : List (String × Entry)) (room : String) : Entry :=
  (alFind rs room).getD []

/-- Relay message handler for one parsed message from connection c: a join
overwrites the role slot of the room (creating the room when absent); a
signal looks up the destination slot and forwards the payload when the target
transport has readyState 1, silently dropping it otherwise; anything else is
ignored. -/
def handleRelayMsg (st : RelayState) (c : ℕ) : Msg → RelayState
  | .join room role =>
      { st with rooms := alSet st.rooms room (alSet (roomsGet st.rooms room) role c) }
  | .signal room dest data =>
      match alFind (roomsGet st.rooms room) dest with
      | some target =>
          if alFind st.ready target = some 1 then
            { st with delivered := st.delivered ++ [(target, data)] }
          else st
      | none => st
  | .other => st

/-- The per-room body of the close cleanup: when the closing connection holds
the offerer or answerer slot, those slots are deleted, and when afterwards
neither of the two slots is occupied the whole room is dropped (the source
tests only these two keys).  Returns none when the room is to be deleted. -/
def cleanupEntry (e : Entry) (c : ℕ) : Option Entry :=
  if alFind e "offerer" = some c ∨ alFind e "answerer" = some c then
    let e1 := if alFind e "offerer" = some c then alDel e "offerer" else e
    let e2 := if alFind e1 "answerer" = some c then alDel e1 "answerer" else e1
    if alFind e2 "offerer" = none ∧ alFind e2 "answerer" = none then none
    else some e2
  else some e

/-- Transport close handler of the relay: scan every room and apply the
cleanup for the closing connection c. -/
def handleConnClose (st : RelayState) (c : ℕ) : RelayState :=
  { st with
    rooms := st.rooms.filterMap fun p =>
      match cleanupEntry p.2 c with
      | none => none
      | some e => some (p.1, e) }

/-- Events of the relay event loop: a parsed message from a connection, a
transport close, or an environment change of a transport readyState. -/
inductive REv
  | message (c : ℕ) (m : Msg)
  | connClose (c : ℕ)
  | setReady (c : ℕ) (n : ℕ)
  deriving DecidableEq

/-- One step of the relay event loop. -/
def relayStep (st : RelayState) : REv → RelayState
  | .message c m => handleRelayMsg st c m
  | .connClose c => handleConnClose st c
  | .setReady c n => { st with ready := alSet st.ready c n }

/-- Run a list of relay events in order. -/
def relayRun (st : RelayState) : List REv → RelayState
  | [] => st
  | e :: es => relayRun (relayStep st e) es

/-- Payloads the relay has forwarded to connection c, in order. -/
def sentTo (st : RelayState) (c : ℕ) : List ℕ :=
  (st.delivered.filter fun p => p.1 = c).map Prod.snd

/-! ## Sender orchestrator (ScreenSender) -/

/-- ScreenSender state.  Peer connections are identified by the generation
counter nextPC, bumped on every RTCPeerConnection construction, so that a
rebuilt session is distinguishable from the discarded one.  sigOpen mirrors
signalingClient.isConnected(), which is true exactly while the status events
connected and reconnected are being delivered (they fire from inside
ws.onopen). -/
structure ScreenSender where
  room : String
  pc : Option ℕ
  nextPC : ℕ
  sigOpen : Bool
  deriving DecidableEq, Repr

/-- Observable actions of the sender orchestrator, in program order:
messages pushed into the signaling client, peer connection teardown and
construction, feeding a remote payload into a given peer connection
generation, and the offer send performed at the end of createOffer. -/
inductive SAct
  | sendMsg (m : Msg)
  | pcClose (g : ℕ)
  | pcCreate (g : ℕ)
  | pcSetRemote (g : ℕ) (d : ℕ)
  | offerSend (g : ℕ)
  deriving DecidableEq, Repr

/-- Status and message events handleStatusChange and handleSignal react to. -/
inductive SEv
  | connected
  | reconnectedStatus
  | disconnected
  | signalMsg (d : ℕ)
  deriving DecidableEq, Repr

/-- ScreenSender.joinRoom: bail out when the signaling client is not
connected; otherwise send the join message for this.room under the fixed role
offerer, then initializeWebRTC, which constructs a fresh RTCPeerConnection
and, via createOffer, sends the local description to the answerer. -/
def joinRoom (s : ScreenSender) : ScreenSender × List SAct :=
  if s.sigOpen = false then (s, [])
  else
    ({ s with pc := some s.nextPC, nextPC := s.nextPC + 1 },
     [SAct.sendMsg (Msg.join s.room "offerer"), SAct.pcCreate s.nextPC,
      SAct.offerSend s.nextPC])

/-- ScreenSender.rejoinAfterReconnect: close and drop the current peer
connection, then joinRoom, which rejoins and reinitializes from scratch. -/
def rejoinAfterReconnect (s : ScreenSender) : ScreenSender × List SAct :=
  match s.pc with
  | some g =>
      let (s1, acts) := joinRoom { s with pc := none }
      (s1, SAct.pcClose g :: acts)
  | none => joinRoom s

/-- ScreenSender.handleSignal: drop the payload when no peer connection
exists, otherwise feed it to the current one. -/
def handleSignal (s : ScreenSender) (d : ℕ) : ScreenSender × List SAct :=
  match s.pc with
  | none => (s, [])
  | some g => (s, [SAct.pcSetRemote g d])

/-- ScreenSender.handleStatusChange plus handleSignal, as one step function.
The connected and reconnected statuses fire from inside ws.onopen, so they
set sigOpen; a disconnected status fires from ws.onclose, where
isConnected() is false. -/
def senderStep (s : ScreenSender) : SEv → ScreenSender × List SAct
  | .connected => joinRoom { s with sigOpen := true }
  | .reconnectedStatus => rejoinAfterReconnect { s with sigOpen := true }
  | .disconnected => ({ s with sigOpen := false }, [])
  | .signalMsg d => handleSignal s d

/-- The join messages inside an action list. -/
def joinsOf (acts : List SAct) : List Msg :=
  acts.filterMap fun a =>
    match a with
    | .sendMsg (Msg.join room role) => some (Msg.join room role)
    | _ => none

/-- The peer connection constructions inside an action list. -/
def createsOf (acts : List SAct) : List ℕ :=
  acts.filterMap fun a =>
    match a with
    | .pcCreate g => some g
    | _ => none

/-- The remote-payload submissions inside an action list, as pairs of peer
connection generation and payload. -/
def forwardsOf (acts : List SAct) : List (ℕ × ℕ) :=
  acts.filterMap fun a =>
    match a with
    | .pcSetRemote g d => some (g, d)
    | _ => none

/-- Join message sent by the onOpen handler of createWebRTCSignaling in the
receiver-app signaling copy: when a room was configured, join it under the
lowercased role. -/
def wrapperOnOpenJoins (room role : String) : List Msg :=
  if room ≠ "" then [Msg.join room role.toLower] else []

/-- Join message re-sent by the onReconnected handler of the same wrapper. -/
def wrapperOnReconnectedJoins (room role : String) : List Msg :=
  if room ≠ "" then [Msg.join room role.toLower] else []

example :
    (handleRelayMsg initRelay 5 (Msg.join "r1" "offerer")).rooms
      = [("r1", [("offerer", 5)])] := by decide

/-! ## Basic facts about the client operations -/

lemma scheduleReconnect_sockets (j : ℚ) (w : World) :
    (scheduleReconnect j w).sockets = w.sockets := by
  unfold scheduleReconnect; split <;> rfl

lemma scheduleReconnect_shouldReconnect (j : ℚ) (w : World) :
    (scheduleReconnect j w).client.shouldReconnect = w.client.shouldReconnect := by
  unfold scheduleReconnect; split <;> rfl

lemma handleClose_sockets (j : ℚ) (w : World) :
    (handleClose j w).sockets = w.sockets := by
  unfold handleClose
  dsimp only
  split
  · rw [scheduleReconnect_sockets]
  · rfl

lemma handleClose_shouldReconnect (j : ℚ) (w : World) :
    (handleClose j w).client.shouldReconnect = w.client.shouldReconnect := by
  unfold handleClose
  dsimp only
  split
  · rw [scheduleReconnect_shouldReconnect]
  · rfl

lemma handleOpen_sockets (w : World) : (handleOpen w).sockets = w.sockets := by
  unfold handleOpen
  dsimp only
  split <;> rfl

lemma handleOpen_shouldReconnect (w : World) :
    (handleOpen w).client.shouldReconnect = w.client.shouldReconnect := by
  unfold handleOpen
  dsimp only
  split <;> rfl

lemma handleError_sockets (w : World) : (handleError w).sockets = w.sockets := rfl

lemma handleError_shouldReconnect (w : World) :
    (handleError w).client.shouldReconnect = w.client.shouldReconnect := rfl

lemma connect_shouldReconnect (w : World) :
    (connect w).client.shouldReconnect = w.client.shouldReconnect := by
  unfold connect; split <;> rfl

lemma closeSock_length (ss : List SockPhase) (i : ℕ) :
    (closeSock ss i).length = ss.length := by
  unfold closeSock; split
  · exact List.length_set ss i _
  · rfl

lemma close_shouldReconnect (w : World) : (close w).client.shouldReconnect = false := by
  unfold close
  dsimp only
  split <;> rfl

lemma close_ws (w : World) : (close w).client.ws = none := by
  unfold close
  dsimp only
  split
  · next heq => exact heq
  · rfl

lemma close_sockets_length (w : World) :
    (close w).sockets.length = w.sockets.length := by
  unfold close
  dsimp only
  split
  · rfl
  · exact closeSock_length w.sockets _

/-- After any single event, a cleared shouldReconnect flag stays cleared:
nothing but the constructor ever sets it. -/
lemma step_shouldReconnect_false (w : World) (e : Ev)
    (h : w.client.shouldReconnect = false) :
    (step w e).client.shouldReconnect = false := by
  cases e with
  | appConnect => simp only [step]; rw [connect_shouldReconnect]; exact h
  | appClose => exact close_shouldReconnect w
  | timerFire =>
      simp only [step]
      split
      · exact h
      · dsimp only
        split
        · rw [connect_shouldReconnect]; exact h
        · exact h
  | sockOpen i =>
      simp only [step]
      split
      · rw [handleOpen_shouldReconnect]; exact h
      · exact h
  | sockFail i =>
      simp only [step]
      split
      · rw [handleError_shouldReconnect]; exact h
      · exact h
  | sockCloseFire i j =>
      simp only [step]
      split
      · rw [handleClose_shouldReconnect]; exact h
      · exact h
  | sockServerClose i =>
      simp only [step]
      split <;> exact h
  | sockClosed i j =>
      simp only [step]
      split
      · rw [handleClose_shouldReconnect]; exact h
      · exact h

lemma run_shouldReconnect_false (w : World) (evs : List Ev)
    (h : w.client.shouldReconnect = false) :
    (run w evs).client.shouldReconnect = false := by
  induction evs generalizing w with
  | nil => exact h
  | cons e es ih => exact ih (step w e) (step_shouldReconnect_false w e h)

/-- With the reconnect flag cleared, no event other than an application
connect call can create a socket: the timer double-check refuses, and the
close handler refuses to schedule. -/
lemma step_sockets_length_of_noReconnect (w : World) (e : Ev)
    (h : w.client.shouldReconnect = false) (he : e ≠ Ev.appConnect) :
    (step w e).sockets.length = w.sockets.length := by
  cases e with
  | appConnect => exact absurd rfl he
  | appClose => exact close_sockets_length w
  | timerFire =>
      simp only [step]
      split
      · rfl
      · dsimp only
        split
        · next hc => exact absurd hc (by simp [h])
        · rfl
  | sockOpen i =>
      simp only [step]
      split
      · rw [handleOpen_sockets]; exact List.length_set w.sockets i _
      · rfl
  | sockFail i =>
      simp only [step]
      split
      · rw [handleError_sockets]; exact List.length_set w.sockets i _
      · rfl
  | sockCloseFire i j =>
      simp only [step]
      split
      · rw [handleClose_sockets]; exact List.length_set w.sockets i _
      · rfl
  | sockServerClose i =>
      simp only [step]
      split
      · exact List.length_set w.sockets i _
      · rfl
  | sockClosed i j =>
      simp only [step]
      split
      · rw [handleClose_sockets]; exact List.length_set w.sockets i _
      · rfl

lemma run_sockets_length_of_noReconnect (w : World) (evs : List Ev)
    (h : w.client.shouldReconnect = false) (hevs : ∀ e ∈ evs, e ≠ Ev.appConnect) :
    (run w evs).sockets.length = w.sockets.length := by
  induction evs generalizing w with
  | nil => rfl
  | cons e es ih =>
      have h1 := step_sockets_length_of_noReconnect w e h (hevs e (by simp))
      have h2 := step_shouldReconnect_false w e h
      rw [run, ih (step w e) h2 (fun x hx => hevs x (by simp [hx])), h1]

/-! ## Claim C5: stop during backoff prevents any further connect -/

/-- C5: once close() has been called on a SignalingClient instance (which is
all the orchestrator stop() does to it), no event the instance generates for
itself — including a reconnect timer that was already pending when close()
ran — ever initiates another connection attempt: the socket list never grows
again, because the cleared shouldReconnect flag is consulted both by the
close handler before scheduling and by the timer callback before connecting.
Only the application itself calling connect() again is excluded. -/
theorem C5_close_cancels_pending_reconnect (w : World) (evs : List Ev)
    (hevs : ∀ e ∈ evs, e ≠ Ev.appConnect) :
    (run (close w) evs).sockets.length = (close w).sockets.length ∧
    (run (close w) evs).client.shouldReconnect = false := by
  refine ⟨?_, ?_⟩
  · exact run_sockets_length_of_noReconnect (close w) evs (close_shouldReconnect w) hevs
  · exact run_shouldReconnect_false (close w) evs (close_shouldReconnect w)

/-- A client state with a reconnect timer pending: the previous socket has
fully closed and scheduleReconnect has already run. -/
def pendingTimerWorld : World :=
  { cfg := defaultCfg
    client :=
      { retryDelay := 2000
        retryCount := 1
        isConnecting := false
        shouldReconnect := true
        ws := some 0 }
    sockets := [SockPhase.closedDone]
    timers := 1
    log := [Emit.errorEvt, Emit.closedEvt, Emit.reconnecting 1 1000] }

theorem C5_close_cancels_pending_reconnect_witness :
    (run (close pendingTimerWorld) [Ev.timerFire]).sockets.length
        = (close pendingTimerWorld).sockets.length ∧
    (run (close pendingTimerWorld) [Ev.timerFire]).client.shouldReconnect = false :=
  C5_close_cancels_pending_reconnect pendingTimerWorld [Ev.timerFire] (by decide)

/-! ## Claim C9: behaviour of an instance after close() -/

/-- Formal statement of claim C9: after close() the instance is permanently
closed — its current transport readyState reads CLOSED and no later
operation, a new connect() call included, ever brings it back to the OPEN
state — and close() is idempotent. -/
def C9Claim : Prop :=
  (∀ w : World, close (close w) = close w) ∧
  ∀ (w : World) (evs : List Ev), isConnected (run (close w) evs) = false

/-- An explicit run refuting the permanence half of claim C9: connect, reach
OPEN, close (readyState then reads CLOSED), then an explicit second connect()
followed by a successful transport open puts the same instance back into the
OPEN state. -/
def reopenTrace : List Ev :=
  [Ev.appConnect, Ev.sockOpen 0, Ev.appClose, Ev.appConnect, Ev.sockOpen 1]

theorem C9_counterexample : ¬ C9Claim := by
  intro h
  have h1 := h.2 (run (initWorld defaultCfg) [Ev.appConnect, Ev.sockOpen 0])
      [Ev.appConnect, Ev.sockOpen 1]
  have h2 : isConnected
      (run (close (run (initWorld defaultCfg) [Ev.appConnect, Ev.sockOpen 0]))
        [Ev.appConnect, Ev.sockOpen 1]) = true := by decide
  rw [h1] at h2
  exact Bool.false_ne_true h2

/-- C9 amended: close() is idempotent and permanently clears the reconnect
flag, so the instance never reconnects of its own accord; but it is not
permanently closed — the counterexample shows a later explicit connect() can
return it to the OPEN state. -/
theorem C9_close_idempotent_and_no_auto_reconnect (w : World) (evs : List Ev) :
    close (close w) = close w ∧
    (run (close w) evs).client.shouldReconnect = false := by
  refine ⟨?_, run_shouldReconnect_false (close w) evs (close_shouldReconnect w)⟩
  cases hw : w.client.ws with
  | none => simp [close, hw]
  | some i => simp [close, hw]

/-! ## Claim C6: at most one transport attempt in flight -/

/-- Formal statement of claim C6: in every state of the client reachable
from construction, at most one transport is in flight (still connecting or
open), and while one is, a further connect() call changes nothing. -/
def C6Claim : Prop :=
  ∀ evs : List Ev,
    countInFlight (run (initWorld defaultCfg) evs).sockets ≤ 1 ∧
    (1 ≤ countInFlight (run (initWorld defaultCfg) evs).sockets →
      connect (run (initWorld defaultCfg) evs) = run (initWorld defaultCfg) evs)

/-- A reachable run with two transports in flight at once: the server starts
closing an open socket (readyState CLOSING, close event not yet delivered),
the application calls connect() — permitted, since isConnecting is false and
the current readyState is not OPEN — and when the stale close event of the
old socket finally runs, it clears isConnecting and schedules a reconnect
whose timer then calls connect() while the second socket is still
connecting, creating a third. -/
def twoInFlightTrace : List Ev :=
  [Ev.appConnect, Ev.sockOpen 0, Ev.sockServerClose 0, Ev.appConnect,
   Ev.sockClosed 0 0, Ev.timerFire]

theorem C6_counterexample : ¬ C6Claim := by
  intro h
  have h1 := (h twoInFlightTrace).1
  have h2 : countInFlight (run (initWorld defaultCfg) twoInFlightTrace).sockets = 2 := by
    decide
  omega

/-- C6 amended: connect() is a no-op whenever the isConnecting flag is set or
the current transport is OPEN, so no second transport is created while the
client considers itself connecting or open; the global at-most-one-in-flight
invariant, however, fails in reachable states where a superseded transport's
stale close handler has cleared the flag (see the counterexample). -/
theorem C6_connect_noop_when_connecting_or_open (w : World)
    (h : w.client.isConnecting = true ∨ wsPhase w = some SockPhase.opened) :
    connect w = w := by
  unfold connect
  rw [if_pos h]

/-- A client in the middle of its first connection attempt. -/
def busyWorld : World :=
  { cfg := defaultCfg
    client :=
      { retryDelay := 1000
        retryCount := 0
        isConnecting := true
        shouldReconnect := true
        ws := some 0 }
    sockets := [SockPhase.connecting]
    timers := 0
    log := [] }

theorem C6_connect_noop_when_connecting_or_open_witness :
    connect busyWorld = busyWorld :=
  C6_connect_noop_when_connecting_or_open busyWorld (Or.inl rfl)

/-! ## Claim C2: behaviour of a successful transport open -/

/-- Formal statement of claim C2 over the shared client: on a successful
open, the retry count resets to 0, the delay resets to the configured
initial delay, and exactly one of reconnected and opened is emitted,
reconnected precisely when the retry count was nonzero just before the
reset. -/
def C2Claim : Prop :=
  ∀ w : World,
    (handleOpen w).client.retryCount = 0 ∧
    (handleOpen w).client.retryDelay = w.cfg.initialRetryDelay ∧
    (w.client.retryCount ≠ 0 → emitted handleOpen w = [Emit.reconnectedEvt]) ∧
    (w.client.retryCount = 0 → emitted handleOpen w = [Emit.openedEvt])

/-- Constructor options with a non-default initial delay of 500 ms. -/
def cfgInit500 : ClientCfg := { defaultCfg with initialRetryDelay := 500 }

/-- A reachable client state about to complete its first retry: the first
attempt failed, the retry timer fired and the second attempt is connecting,
with retryCount = 1.  The next transport open runs handleOpen here. -/
def reconnectMomentWorld : World :=
  run (initWorld cfgInit500)
    [Ev.appConnect, Ev.sockFail 0, Ev.sockCloseFire 0 100, Ev.timerFire]

theorem C2_counterexample : ¬ C2Claim := by
  intro h
  have h1 := (h reconnectMomentWorld).2.2.1 (by decide)
  have h2 : emitted handleOpen reconnectMomentWorld = [Emit.openedEvt] := by decide
  rw [h1] at h2
  exact absurd h2 (by decide)

/-- C2 amended: on every successful open both clients reset the retry count
to 0 and the delay to the literal 1000 ms (the default initial delay,
regardless of the configured one); the shared client then always emits only
opened, because its nonzero test reads the retry count after the reset; the
receiver-app client emits reconnected precisely when the count was nonzero
before the reset, and additionally always emits opened. -/
theorem C2_open_resets_and_emits (w : World) :
    (handleOpen w).client.retryCount = 0 ∧
    (handleOpen w).client.retryDelay = 1000 ∧
    emitted handleOpen w = [Emit.openedEvt] ∧
    (handleOpenReceiver w).client.retryCount = 0 ∧
    (handleOpenReceiver w).client.retryDelay = 1000 ∧
    emitted handleOpenReceiver w =
      (if 0 < w.client.retryCount then [Emit.reconnectedEvt, Emit.openedEvt]
       else [Emit.openedEvt]) := by
  refine ⟨rfl, rfl, ?_, ?_, ?_, ?_⟩
  · simp [emitted, handleOpen, List.drop_left]
  · unfold handleOpenReceiver
    dsimp only
    split <;> rfl
  · unfold handleOpenReceiver
    dsimp only
    split <;> rfl
  · unfold emitted handleOpenReceiver
    dsimp only
    split
    · dsimp only
      rw [List.append_assoc]
      exact List.drop_left _ _
    · exact List.drop_left _ _

/-! ## Claim C1: rejoin and full session reset on reconnect -/

/-- Everything claim C1 asserts about the reconnected status, as one
conjunction over the sender orchestrator model:
1. the handler emits exactly the teardown of the old peer connection, the
   join re-send, one fresh peer connection construction, and the offer send;
2. exactly one fresh initialization happens;
3. no negotiation payload is forwarded to any session during the handler;
4. afterwards the current session is the fresh one;
5. the fresh session is distinct from the discarded one;
6. the re-sent join carries the same room and role as the join that the
   connected status produces from any state with the same room;
7. every payload delivered after the handler is forwarded to the fresh
   session, not the discarded one;
8. the receiver-app signaling wrapper likewise re-sends, on reconnect,
   exactly the join its open handler sends. -/
def C1Concl (s : ScreenSender) (g : ℕ) : Prop :=
  (senderStep s SEv.reconnectedStatus).2 =
      [SAct.pcClose g, SAct.sendMsg (Msg.join s.room "offerer"),
       SAct.pcCreate s.nextPC, SAct.offerSend s.nextPC] ∧
  createsOf (senderStep s SEv.reconnectedStatus).2 = [s.nextPC] ∧
  forwardsOf (senderStep s SEv.reconnectedStatus).2 = [] ∧
  (senderStep s SEv.reconnectedStatus).1.pc = some s.nextPC ∧
  s.nextPC ≠ g ∧
  (∀ t : ScreenSender, t.room = s.room →
      joinsOf (senderStep t SEv.connected).2
        = joinsOf (senderStep s SEv.reconnectedStatus).2) ∧
  (∀ d : ℕ,
      forwardsOf (senderStep (senderStep s SEv.reconnectedStatus).1 (SEv.signalMsg d)).2
        = [(s.nextPC, d)]) ∧
  (∀ room role : String, wrapperOnReconnectedJoins room role = wrapperOnOpenJoins room role)

/-- C1: when the reconnected status is delivered to the orchestrator while it
owns peer connection g (and g predates the next fresh generation, as in every
reachable orchestrator state), the orchestrator re-sends the join with the
same room and role as the original join and tears down and rebuilds the
peer-to-peer session exactly once before any further payload is forwarded. -/
theorem C1_reconnected_rejoins_and_resets (s : ScreenSender) (g : ℕ)
    (h : s.pc = some g) (hg : g < s.nextPC) : C1Concl s g := by
  have hacts : (senderStep s SEv.reconnectedStatus).2 =
      [SAct.pcClose g, SAct.sendMsg (Msg.join s.room "offerer"),
       SAct.pcCreate s.nextPC, SAct.offerSend s.nextPC] := by
    simp [senderStep, rejoinAfterReconnect, joinRoom, h]
  have hpc : (senderStep s SEv.reconnectedStatus).1.pc = some s.nextPC := by
    simp [senderStep, rejoinAfterReconnect, joinRoom, h]
  refine ⟨hacts, ?_, ?_, hpc, Nat.ne_of_gt hg, ?_, ?_, ?_⟩
  · rw [hacts]; rfl
  · rw [hacts]; rfl
  · intro t ht
    rw [hacts]
    simp [senderStep, joinRoom, joinsOf, ht]
  · intro d
    have h1 : senderStep (senderStep s SEv.reconnectedStatus).1 (SEv.signalMsg d)
        = handleSignal (senderStep s SEv.reconnectedStatus).1 d := rfl
    rw [h1]
    unfold handleSignal
    rw [hpc]
    simp [forwardsOf]
  · intro room role
    rfl

/-- The orchestrator state right after the original join: it owns the first
peer connection, generation 0. -/
def senderAfterFirstJoin : ScreenSender :=
  { room := "room-1", pc := some 0, nextPC := 1, sigOpen := true }

theorem C1_reconnected_rejoins_and_resets_witness : C1Concl senderAfterFirstJoin 0 :=
  C1_reconnected_rejoins_and_resets senderAfterFirstJoin 0 rfl (by decide)

/-! ## Association list lemmas for the relay -/

lemma alFind_alSet_self {κ ν : Type} [DecidableEq κ] (l : List (κ × ν)) (k : κ) (v : ν) :
    alFind (alSet l k v) k = some v := by
  induction l with
  | nil => simp [alSet, alFind]
  | cons p rest ih =>
      obtain ⟨a, b⟩ := p
      by_cases hab : a = k
      · simp [alSet, alFind, hab]
      · simp [alSet, alFind, hab, ih]

lemma mem_of_alFind_some {κ ν : Type} [DecidableEq κ] {l : List (κ × ν)} {k : κ} {v : ν}
    (h : alFind l k = some v) : (k, v) ∈ l := by
  induction l with
  | nil => simp [alFind] at h
  | cons p rest ih =>
      obtain ⟨a, b⟩ := p
      by_cases hab : a = k
      · subst hab
        simp [alFind] at h
        subst h
        exact List.mem_cons_self _ _
      · simp [alFind, hab] at h
        exact List.mem_cons_of_mem _ (ih h)

lemma mem_alSet {κ ν : Type} [DecidableEq κ] {l : List (κ × ν)} {k : κ} {v : ν}
    {p : κ × ν} (h : p ∈ alSet l k v) : p = (k, v) ∨ p ∈ l := by
  induction l with
  | nil => simpa [alSet] using h
  | cons q rest ih =>
      obtain ⟨a, b⟩ := q
      by_cases hab : a = k
      · subst hab
        simp [alSet] at h
        rcases h with h | h
        · exact Or.inl (by simp [h])
        · exact Or.inr (List.mem_cons_of_mem _ h)
      · simp [alSet, hab] at h
        rcases h with h | h
        · exact Or.inr (by simp [h])
        · rcases ih h with h1 | h1
          · exact Or.inl h1
          · exact Or.inr (List.mem_cons_of_mem _ h1)

lemma mem_keys_alSet {κ ν : Type} [DecidableEq κ] {l : List (κ × ν)} {k : κ} {v : ν}
    {x : κ} (h : x ∈ (alSet l k v).map Prod.fst) : x = k ∨ x ∈ l.map Prod.fst := by
  rcases List.mem_map.1 h with ⟨p, hp, hx⟩
  rcases mem_alSet hp with h1 | h1
  · exact Or.inl (by rw [← hx, h1])
  · exact Or.inr (List.mem_map.2 ⟨p, h1, hx⟩)

lemma nodup_keys_alSet {κ ν : Type} [DecidableEq κ] (l : List (κ × ν)) (k : κ) (v : ν)
    (h : (l.map Prod.fst).Nodup) : ((alSet l k v).map Prod.fst).Nodup := by
  induction l with
  | nil => simp [alSet]
  | cons q rest ih =>
      obtain ⟨a, b⟩ := q
      simp only [List.map_cons, List.nodup_cons] at h
      by_cases hab : a = k
      · subst hab
        simpa [alSet, List.nodup_cons] using h
      · simp only [alSet, if_neg hab, List.map_cons, List.nodup_cons]
        refine ⟨fun hmem => ?_, ih h.2⟩
        rcases mem_keys_alSet hmem with h1 | h1
        · exact hab h1
        · exact h.1 h1

lemma roomsGet_alSet_self (rs : List (String × Entry)) (room : String) (e : Entry) :
    roomsGet (alSet rs room e) room = e := by
  simp [roomsGet, alFind_alSet_self]

lemma handleRelayMsg_signal_rooms (st : RelayState) (c : ℕ) (room dest : String) (d : ℕ) :
    (handleRelayMsg st c (Msg.signal room dest d)).rooms = st.rooms := by
  simp only [handleRelayMsg]
  split
  · split <;> rfl
  · rfl

/-! ## Claim C10: signal handling never modifies the room map -/

/-- C10: handling a signal message — whatever its room, destination role,
payload, sender, or the readyState of the looked-up target — leaves the
rooms map exactly as it was, and so does an unrecognized message type and a
readyState change; only a join message and a transport close touch it. -/
theorem C10_signal_preserves_rooms :
    (∀ (st : RelayState) (c : ℕ) (room dest : String) (d : ℕ),
        (relayStep st (REv.message c (Msg.signal room dest d))).rooms = st.rooms) ∧
    (∀ (st : RelayState) (c : ℕ),
        (relayStep st (REv.message c Msg.other)).rooms = st.rooms) ∧
    (∀ (st : RelayState) (c n : ℕ),
        (relayStep st (REv.setReady c n)).rooms = st.rooms) := by
  refine ⟨?_, ?_, ?_⟩
  · intro st c room dest d
    exact handleRelayMsg_signal_rooms st c room dest d
  · intro st c
    rfl
  · intro st c n
    rfl

/-! ## Claim C7: last-write-wins join and routing to the new occupant -/

/-- Relay state after two connections joined the same room under the same
role, one after the other. -/
def afterTwoJoins (st : RelayState) (c1 c2 : ℕ) (R role : String) : RelayState :=
  relayStep (relayStep st (REv.message c1 (Msg.join R role)))
    (REv.message c2 (Msg.join R role))

/-- While connection c2 occupies the role slot, a run of signal messages to
that slot leaves the rooms map unchanged and delivers only to c2. -/
lemma relay_signals_deliver_to_occupant (st : RelayState) (R role : String) (c2 : ℕ)
    (sigs : List REv)
    (hocc : alFind (roomsGet st.rooms R) role = some c2)
    (hsigs : ∀ e ∈ sigs, ∃ c d, e = REv.message c (Msg.signal R role d)) :
    (relayRun st sigs).rooms = st.rooms ∧
    ∃ tail, (relayRun st sigs).delivered = st.delivered ++ tail ∧ ∀ p ∈ tail, p.1 = c2 := by
  induction sigs generalizing st with
  | nil => exact ⟨rfl, [], (List.append_nil _).symm, by simp⟩
  | cons e es ih =>
      obtain ⟨c, d, rfl⟩ := hsigs _ (List.mem_cons_self _ _)
      have hrooms1 : (relayStep st (REv.message c (Msg.signal R role d))).rooms = st.rooms :=
        handleRelayMsg_signal_rooms st c R role d
      have hdel1 : ∃ t0,
          (relayStep st (REv.message c (Msg.signal R role d))).delivered
            = st.delivered ++ t0 ∧ ∀ p ∈ t0, p.1 = c2 := by
        simp only [relayStep, handleRelayMsg, hocc]
        split
        · exact ⟨[(c2, d)], rfl, by simp⟩
        · exact ⟨[], (List.append_nil _).symm, by simp⟩
      obtain ⟨t0, ht0, ht0c⟩ := hdel1
      have hocc1 :
          alFind (roomsGet (relayStep st (REv.message c (Msg.signal R role d))).rooms R) role
            = some c2 := by rw [hrooms1]; exact hocc
      obtain ⟨hrooms2, t1, ht1, ht1c⟩ :=
        ih (relayStep st (REv.message c (Msg.signal R role d))) hocc1
          (fun x hx => hsigs x (List.mem_cons_of_mem _ hx))
      refine ⟨by rw [relayRun, hrooms2, hrooms1], t0 ++ t1, ?_, ?_⟩
      · rw [relayRun, ht1, ht0, List.append_assoc]
      · intro p hp
        rcases List.mem_append.1 hp with hp | hp
        · exact ht0c p hp
        · exact ht1c p hp

/-- Everything claim C7 asserts, over the relay model: after the second join
the role slot holds c2 and keeps holding it across any run of signal
messages addressed to that slot, no such signal is ever delivered to c1, and
every delivery the run produces goes to c2. -/
def C7Concl (st : RelayState) (c1 c2 : ℕ) (R role : String) (sigs : List REv) : Prop :=
  alFind (roomsGet (afterTwoJoins st c1 c2 R role).rooms R) role = some c2 ∧
  alFind (roomsGet (relayRun (afterTwoJoins st c1 c2 R role) sigs).rooms R) role = some c2 ∧
  sentTo (relayRun (afterTwoJoins st c1 c2 R role) sigs) c1
    = sentTo (afterTwoJoins st c1 c2 R role) c1 ∧
  ∀ p ∈ (relayRun (afterTwoJoins st c1 c2 R role) sigs).delivered,
      p ∈ (afterTwoJoins st c1 c2 R role).delivered ∨ p.1 = c2

/-- C7: two sequential joins to the same room and role leave only the second
connection as the occupant of the slot (last-write-wins, no rejection), and
every subsequent signal addressed to that role is delivered only to the
second connection, never to the first. -/
theorem C7_last_write_wins (st : RelayState) (c1 c2 : ℕ) (R role : String)
    (sigs : List REv) (hne : c1 ≠ c2)
    (hsigs : ∀ e ∈ sigs, ∃ c d, e = REv.message c (Msg.signal R role d)) :
    C7Concl st c1 c2 R role sigs := by
  have hocc : alFind (roomsGet (afterTwoJoins st c1 c2 R role).rooms R) role = some c2 := by
    simp only [afterTwoJoins, relayStep, handleRelayMsg]
    rw [roomsGet_alSet_self]
    exact alFind_alSet_self _ _ _
  obtain ⟨hrooms, tail, htail, htailc⟩ :=
    relay_signals_deliver_to_occupant (afterTwoJoins st c1 c2 R role) R role c2 sigs hocc hsigs
  refine ⟨hocc, by rw [hrooms]; exact hocc, ?_, ?_⟩
  · unfold sentTo
    rw [htail, List.filter_append]
    have hnil : (tail.filter fun p => p.1 = c1) = [] := by
      rw [List.filter_eq_nil_iff]
      intro p hp
      have := htailc p hp
      simp [this, Ne.symm hne]
    rw [hnil, List.append_nil]
  · intro p hp
    rw [htail] at hp
    rcases List.mem_append.1 hp with hp | hp
    · exact Or.inl hp
    · exact Or.inr (htailc p hp)

/-- A second joiner displacing the first in room r2, then a signal addressed
to the role, with both transports open. -/
def relayReadyBoth : RelayState :=
  { rooms := [], ready := [(1, 1), (2, 1)], delivered := [] }

theorem C7_last_write_wins_witness :
    C7Concl relayReadyBoth 1 2 "r2" "offerer"
      [REv.message 1 (Msg.signal "r2" "offerer" 7)] :=
  C7_last_write_wins relayReadyBoth 1 2 "r2" "offerer"
    [REv.message 1 (Msg.signal "r2" "offerer" 7)] (by decide)
    (by
      intro e he
      rw [List.mem_singleton] at he
      subst he
      exact ⟨1, 7, rfl⟩)

/-! ## Claim C8: a room never holds more than two members, one per role -/

/-- Well-formedness of one room object: role keys are pairwise distinct and
drawn from the two role names the protocol uses. -/
def entryOK (e : Entry) : Prop :=
  (e.map Prod.fst).Nodup ∧ ∀ k ∈ e.map Prod.fst, k = "offerer" ∨ k = "answerer"

/-- Every room object in the rooms map is well formed. -/
def relayOK (st : RelayState) : Prop := ∀ p ∈ st.rooms, entryOK p.2

/-- An event is well formed when any join it carries uses one of the two
protocol roles; everything else is unrestricted. -/
def joinRoleOK : REv → Bool
  | .message _ (Msg.join _ role) => role = "offerer" ∨ role = "answerer"
  | _ => true

lemma entryOK_nil : entryOK [] := ⟨List.nodup_nil, by simp⟩

lemma entryOK_alSet (e : Entry) (role : String) (c : ℕ)
    (hrole : role = "offerer" ∨ role = "answerer") (h : entryOK e) :
    entryOK (alSet e role c) := by
  refine ⟨nodup_keys_alSet e role c h.1, ?_⟩
  intro k hk
  rcases mem_keys_alSet hk with h1 | h1
  · rw [h1]; exact hrole
  · exact h.2 k h1

lemma entryOK_alDel (e : Entry) (k : String) (h : entryOK e) : entryOK (alDel e k) := by
  have hsub : ((alDel e k).map Prod.fst).Sublist (e.map Prod.fst) :=
    (List.filter_sublist e).map Prod.fst
  exact ⟨h.1.sublist hsub, fun x hx => h.2 x (hsub.subset hx)⟩

lemma entryOK_cleanup {e : Entry} {c : ℕ} {e2 : Entry}
    (h : cleanupEntry e c = some e2) (he : entryOK e) : entryOK e2 := by
  unfold cleanupEntry at h
  dsimp only at h
  split_ifs at h
  all_goals simp only [Option.some_inj] at h
  all_goals
    subst h
    first
      | exact entryOK_alDel _ _ (entryOK_alDel _ _ he)
      | exact entryOK_alDel _ _ he
      | exact he

lemma relayOK_step (st : RelayState) (e : REv) (h : relayOK st)
    (he : joinRoleOK e = true) : relayOK (relayStep st e) := by
  cases e with
  | message c m =>
      cases m with
      | join room role =>
          have hrole : role = "offerer" ∨ role = "answerer" := by
            simpa [joinRoleOK] using he
          have hbase : entryOK (roomsGet st.rooms room) := by
            unfold roomsGet
            cases hfind : alFind st.rooms room with
            | none => exact entryOK_nil
            | some e0 => exact h _ (mem_of_alFind_some hfind)
          intro p hp
          rcases mem_alSet hp with h1 | h1
          · rw [h1]
            exact entryOK_alSet _ role c hrole hbase
          · exact h p h1
      | signal room dest d =>
          intro p hp
          have hr : (relayStep st (REv.message c (Msg.signal room dest d))).rooms = st.rooms :=
            handleRelayMsg_signal_rooms st c room dest d
          rw [hr] at hp
          exact h p hp
      | other => exact h
  | connClose c =>
      intro p hp
      simp only [relayStep, handleConnClose] at hp
      rcases List.mem_filterMap.1 hp with ⟨q, hq, hfq⟩
      rcases hcl : cleanupEntry q.2 c with _ | e2
      · rw [hcl] at hfq; exact absurd hfq (by simp)
      · rw [hcl] at hfq
        have hp2 : p.2 = e2 := by
          have : (q.1, e2) = p := by simpa using hfq
          rw [← this]
        rw [hp2]
        exact entryOK_cleanup hcl (h q hq)
  | setReady c n => exact h

lemma relayOK_run (st : RelayState) (evs : List REv) (h : relayOK st)
    (hevs : ∀ e ∈ evs, joinRoleOK e = true) : relayOK (relayRun st evs) := by
  induction evs generalizing st with
  | nil => exact h
  | cons e es ih =>
      exact ih (relayStep st e) (relayOK_step st e h (hevs e (List.mem_cons_self _ _)))
        (fun x hx => hevs x (List.mem_cons_of_mem _ hx))

lemma nodup_two_vals {α : Type} (l : List α) (a b : α) (hn : l.Nodup)
    (h : ∀ x ∈ l, x = a ∨ x = b) : l.length ≤ 2 := by
  match l with
  | [] => simp
  | [_] => simp
  | [_, _] => simp
  | x :: y :: z :: rest =>
      exfalso
      have hx := h x (by simp)
      have hy := h y (by simp)
      have hz := h z (by simp)
      simp only [List.nodup_cons, List.mem_cons] at hn
      have hxy : x ≠ y := fun hxy => hn.1 (Or.inl hxy)
      have hxz : x ≠ z := fun hxz => hn.1 (Or.inr (Or.inl hxz))
      have hyz : y ≠ z := fun hyz => hn.2.1 (Or.inl hyz)
      rcases hx with hx | hx <;> rcases hy with hy | hy <;> rcases hz with hz | hz <;>
        simp_all

/-- The conclusion of claim C8: after any run of well-formed events from the
fresh relay, every room object — looked up by any room key, absent rooms
reading as empty — holds at most two members, with pairwise distinct role
keys, hence at most one connection per role. -/
def C8Concl (evs : List REv) : Prop :=
  ∀ room : String,
    (roomsGet (relayRun initRelay evs).rooms room).length ≤ 2 ∧
    ((roomsGet (relayRun initRelay evs).rooms room).map Prod.fst).Nodup

/-- C8: in every relay state reachable by joins that use the two protocol
roles, signals, readyState changes, and transport closes, no room ever
accumulates more than two connection handles, and each role slot holds at
most one. -/
theorem C8_room_never_exceeds_two (evs : List REv)
    (hevs : ∀ e ∈ evs, joinRoleOK e = true) : C8Concl evs := by
  intro room
  have hOK : relayOK (relayRun initRelay evs) :=
    relayOK_run initRelay evs (by intro p hp; simp [initRelay] at hp) hevs
  have hentry : entryOK (roomsGet (relayRun initRelay evs).rooms room) := by
    unfold roomsGet
    cases hfind : alFind (relayRun initRelay evs).rooms room with
    | none => exact entryOK_nil
    | some e0 => exact hOK _ (mem_of_alFind_some hfind)
  refine ⟨?_, hentry.1⟩
  have := nodup_two_vals _ "offerer" "answerer" hentry.1 hentry.2
  simpa using this

/-- Three well-formed events: both roles join room r and the offerer slot is
then overwritten by a third connection. -/
def threeJoins : List REv :=
  [REv.message 1 (Msg.join "r" "offerer"), REv.message 2 (Msg.join "r" "answerer"),
   REv.message 3 (Msg.join "r" "offerer")]

theorem C8_room_never_exceeds_two_witness : C8Concl threeJoins :=
  C8_room_never_exceeds_two threeJoins (by decide)

/-! ## The consecutive-failure scenario for claims C3 and C4 -/

/-- One failed connection attempt and its aftermath: the current (newest)
socket fails, its close event fires (scheduling a retry when allowed, with
jitter j), and the pending timer, if any, fires and calls connect again. -/
def failCycle (w : World) (j : ℚ) : World :=
  step (step (step w (Ev.sockFail (w.sockets.length - 1)))
      (Ev.sockCloseFire (w.sockets.length - 1) j)) Ev.timerFire

/-- A run of consecutive failed attempts with the given jitter draws. -/
def failRun (w : World) : List ℚ → World
  | [] => w
  | j :: js => failRun (failCycle w j) js

/-- A client mid-attempt after n dead sockets: the newest socket is
connecting, isConnecting is set, reconnection is enabled and no timer is
pending. -/
def Active (w : World) (n : ℕ) : Prop :=
  w.sockets = List.replicate n SockPhase.closedDone ++ [SockPhase.connecting] ∧
  w.client.ws = some n ∧
  w.client.isConnecting = true ∧
  w.client.shouldReconnect = true ∧
  w.timers = 0

/-- A client whose every socket is fully closed and that has no pending
timer: nothing it does on its own can ever connect again. -/
def DeadW (w : World) : Prop :=
  (∀ p ∈ w.sockets, p = SockPhase.closedDone) ∧ w.timers = 0

/-- The client just after its first connect() call, default options. -/
def startDefault : World := step (initWorld defaultCfg) Ev.appConnect

/-- Constructor options with maxRetries set to 10. -/
def cfgMax10 : ClientCfg := { defaultCfg with maxRetries := some 10 }

/-- The client just after its first connect() call, maxRetries = 10. -/
def startMax10 : World := step (initWorld cfgMax10) Ev.appConnect

lemma repl_get (n : ℕ) (a b : SockPhase) :
    (List.replicate n a ++ [b]).get? n = some b := by
  induction n with
  | zero => rfl
  | succ k ih => simp [List.replicate_succ, ih]

lemma repl_set (n : ℕ) (a b c : SockPhase) :
    (List.replicate n a ++ [b]).set n c = List.replicate n a ++ [c] := by
  induction n with
  | zero => rfl
  | succ k ih => simp [List.replicate_succ, ih]

lemma exhaustedCount_append (l1 l2 : List Emit) :
    exhaustedCount (l1 ++ l2) = exhaustedCount l1 + exhaustedCount l2 := by
  simp [exhaustedCount, List.filter_append]

lemma reconnectDelays_append (l1 l2 : List Emit) :
    reconnectDelays (l1 ++ l2) = reconnectDelays l1 ++ reconnectDelays l2 := by
  simp [reconnectDelays, List.filterMap_append]

/-- One failure cycle below the retry limit: the client schedules exactly one
retry, emitting the current delay, bumps the count, applies the
backoff-with-jitter update and is mid-attempt again with one more dead
socket. -/
lemma failCycle_active (w : World) (n : ℕ) (j : ℚ) (hA : Active w n)
    (hlt : retryLimitReached w.cfg.maxRetries w.client.retryCount = false) :
    Active (failCycle w j) (n + 1) ∧
    (failCycle w j).cfg = w.cfg ∧
    (failCycle w j).client.retryCount = w.client.retryCount + 1 ∧
    (failCycle w j).client.retryDelay
      = min (w.client.retryDelay * w.cfg.retryMultiplier + j) w.cfg.maxRetryDelay ∧
    (failCycle w j).log
      = w.log ++ [Emit.errorEvt, Emit.closedEvt,
          Emit.reconnecting (w.client.retryCount + 1) w.client.retryDelay] := by
  obtain ⟨hss, hws, hic, hsr, ht⟩ := hA
  obtain ⟨cfg, ⟨rd, rc, ic, sr, ws⟩, ss, t, lg⟩ := w
  dsimp only at hss hws hic hsr ht hlt ⊢
  subst hss hws hic hsr ht
  refine ⟨⟨?_, ?_, ?_, ?_, ?_⟩, ?_, ?_, ?_, ?_⟩ <;>
    simp [failCycle, step, handleError, handleClose, scheduleReconnect, connect, wsPhase,
      repl_get, repl_set, hlt, List.replicate_succ']

/-- One failure cycle at the retry limit: the client emits
maxRetriesExhausted, schedules nothing, and every socket is now fully
closed with no timer pending. -/
lemma failCycle_exhaust (w : World) (n : ℕ) (j : ℚ) (hA : Active w n)
    (hge : retryLimitReached w.cfg.maxRetries w.client.retryCount = true) :
    DeadW (failCycle w j) ∧
    (failCycle w j).sockets.length = w.sockets.length ∧
    (failCycle w j).log
      = w.log ++ [Emit.errorEvt, Emit.closedEvt, Emit.maxRetriesExhausted] := by
  obtain ⟨hss, hws, hic, hsr, ht⟩ := hA
  obtain ⟨cfg, ⟨rd, rc, ic, sr, ws⟩, ss, t, lg⟩ := w
  dsimp only at hss hws hic hsr ht hge ⊢
  subst hss hws hic hsr ht
  have hfc : failCycle
      ⟨cfg, ⟨rd, rc, true, true, some n⟩,
        List.replicate n SockPhase.closedDone ++ [SockPhase.connecting], 0, lg⟩ j
      = ⟨cfg, ⟨rd, rc, false, true, some n⟩,
          List.replicate n SockPhase.closedDone ++ [SockPhase.closedDone], 0,
          lg ++ [Emit.errorEvt, Emit.closedEvt, Emit.maxRetriesExhausted]⟩ := by
    simp [failCycle, step, handleError, handleClose, scheduleReconnect, repl_get, repl_set, hge]
  rw [hfc]
  refine ⟨⟨?_, rfl⟩, by simp, by simp⟩
  intro p hp
  rw [← List.replicate_succ'] at hp
  exact List.eq_of_mem_replicate hp

/-- A dead client stays dead: no event except an application connect call
changes its sockets or its log. -/
lemma deadW_step (w : World) (e : Ev) (hD : DeadW w) (he : e ≠ Ev.appConnect) :
    (step w e).sockets.length = w.sockets.length ∧ (step w e).log = w.log ∧
    DeadW (step w e) := by
  obtain ⟨hall, ht⟩ := hD
  have hclosed : ∀ (i : ℕ) (q : SockPhase), w.sockets.get? i = some q →
      q = SockPhase.closedDone := fun i q hq => hall q (List.get?_mem hq)
  cases e with
  | appConnect => exact absurd rfl he
  | appClose =>
      simp only [step]
      refine ⟨close_sockets_length w, ?_, ?_, ?_⟩
      · unfold close
        dsimp only
        split <;> rfl
      · intro p hp
        unfold close at hp
        dsimp only at hp
        split at hp
        · exact hall p hp
        · next i heq =>
            dsimp only at hp
            unfold closeSock at hp
            split at hp
            · next q hq =>
                rcases List.mem_or_eq_of_mem_set hp with h1 | h1
                · exact hall p h1
                · rw [h1, hclosed i q hq]
                  rfl
            · exact hall p hp
      · unfold close
        dsimp only
        split <;> exact ht
  | timerFire =>
      have h0 : w.timers = 0 := ht
      simp only [step, h0, if_pos rfl]
      exact ⟨rfl, rfl, hall, ht⟩
  | sockOpen i =>
      cases hgi : w.sockets.get? i with
      | none => simp only [step, hgi]; exact ⟨rfl, rfl, hall, ht⟩
      | some q =>
          have hq := hclosed i q hgi
          subst hq
          simp only [step, hgi]
          exact ⟨rfl, rfl, hall, ht⟩
  | sockFail i =>
      cases hgi : w.sockets.get? i with
      | none => simp only [step, hgi]; exact ⟨rfl, rfl, hall, ht⟩
      | some q =>
          have hq := hclosed i q hgi
          subst hq
          simp only [step, hgi]
          exact ⟨rfl, rfl, hall, ht⟩
  | sockCloseFire i j =>
      cases hgi : w.sockets.get? i with
      | none => simp only [step, hgi]; exact ⟨rfl, rfl, hall, ht⟩
      | some q =>
          have hq := hclosed i q hgi
          subst hq
          simp only [step, hgi]
          exact ⟨rfl, rfl, hall, ht⟩
  | sockServerClose i =>
      cases hgi : w.sockets.get? i with
      | none => simp only [step, hgi]; exact ⟨rfl, rfl, hall, ht⟩
      | some q =>
          have hq := hclosed i q hgi
          subst hq
          simp only [step, hgi]
          exact ⟨rfl, rfl, hall, ht⟩
  | sockClosed i j =>
      cases hgi : w.sockets.get? i with
      | none => simp only [step, hgi]; exact ⟨rfl, rfl, hall, ht⟩
      | some q =>
          have hq := hclosed i q hgi
          subst hq
          simp only [step, hgi]
          exact ⟨rfl, rfl, hall, ht⟩

lemma deadW_run (w : World) (evs : List Ev) (hD : DeadW w)
    (hevs : ∀ e ∈ evs, e ≠ Ev.appConnect) :
    (run w evs).sockets.length = w.sockets.length ∧ (run w evs).log = w.log ∧
    DeadW (run w evs) := by
  induction evs generalizing w with
  | nil => exact ⟨rfl, rfl, hD⟩
  | cons e es ih =>
      obtain ⟨h1, h2, h3⟩ := deadW_step w e hD (hevs e (List.mem_cons_self _ _))
      obtain ⟨h4, h5, h6⟩ := ih (step w e) h3 (fun x hx => hevs x (List.mem_cons_of_mem _ hx))
      exact ⟨by rw [run, h4, h1], by rw [run, h5, h2], h6⟩

lemma failRun_append (w : World) (a b : List ℚ) :
    failRun w (a ++ b) = failRun (failRun w a) b := by
  induction a generalizing w with
  | nil => rfl
  | cons j js ih => rw [List.cons_append, failRun, failRun, ih]

/-- With unlimited retries (the default), every failure cycle schedules a
retry: the client stays mid-attempt, never emitting maxRetriesExhausted, and
accumulates one socket per failure. -/
lemma failRun_default_count (w : World) (n : ℕ) (js : List ℚ) (hA : Active w n)
    (hcfg : w.cfg = defaultCfg) :
    Active (failRun w js) (n + js.length) ∧
    (failRun w js).cfg = defaultCfg ∧
    exhaustedCount (failRun w js).log = exhaustedCount w.log := by
  induction js generalizing w n with
  | nil => exact ⟨hA, hcfg, rfl⟩
  | cons j js ih =>
      have hlt : retryLimitReached w.cfg.maxRetries w.client.retryCount = false := by
        rw [hcfg]; rfl
      obtain ⟨hA1, hcfg1, _, _, hlog1⟩ := failCycle_active w n j hA hlt
      obtain ⟨hA2, hcfg2, hex2⟩ := ih (failCycle w j) (n + 1) hA1 (hcfg1.trans hcfg)
      refine ⟨?_, hcfg2, ?_⟩
      · rw [failRun]
        have : n + (js.length + 1) = (n + 1) + js.length := by omega
        rw [List.length_cons, this]
        exact hA2
      · rw [failRun, hex2, hlog1, exhaustedCount_append]
        simp [exhaustedCount]

/-- Bound on the retry delays: along a default-configuration failure run they
stay within the cap and below the current delay field. -/
def delaysOK (w : World) : Prop :=
  0 ≤ w.client.retryDelay ∧ w.client.retryDelay ≤ 30000 ∧
  (reconnectDelays w.log).Chain' (· ≤ ·) ∧
  ∀ d ∈ reconnectDelays w.log, d ≤ w.client.retryDelay

lemma mem_of_getLast?_eq {α : Type} {l : List α} {x : α} (h : l.getLast? = some x) :
    x ∈ l := by
  induction l with
  | nil => simp at h
  | cons a t ih =>
      cases t with
      | nil =>
          simp [List.getLast?] at h
          simp [h]
      | cons b t2 =>
          rw [List.getLast?_cons_cons] at h
          exact List.mem_cons_of_mem _ (ih h)

/-- With the default configuration, nonnegative jitter keeps the emitted
reconnect delays non-decreasing and capped by 30000 along any failure run. -/
lemma failRun_default_delays (w : World) (n : ℕ) (js : List ℚ) (hA : Active w n)
    (hcfg : w.cfg = defaultCfg) (hd : delaysOK w) (hj : ∀ j ∈ js, 0 ≤ j) :
    Active (failRun w js) (n + js.length) ∧
    (failRun w js).cfg = defaultCfg ∧
    delaysOK (failRun w js) := by
  induction js generalizing w n with
  | nil => exact ⟨hA, hcfg, hd⟩
  | cons j js ih =>
      obtain ⟨hd0, hd30, hchain, hbound⟩ := hd
      have hj0 : 0 ≤ j := hj j (List.mem_cons_self _ _)
      have hlt : retryLimitReached w.cfg.maxRetries w.client.retryCount = false := by
        rw [hcfg]; rfl
      obtain ⟨hA1, hcfg1, _, hdelay1, hlog1⟩ := failCycle_active w n j hA hlt
      have hmul : w.cfg.retryMultiplier = 2 := by rw [hcfg]; rfl
      have hmax : w.cfg.maxRetryDelay = 30000 := by rw [hcfg]; rfl
      rw [hmul, hmax] at hdelay1
      have hstep : w.client.retryDelay ≤ (failCycle w j).client.retryDelay := by
        rw [hdelay1]
        refine le_min (by linarith) hd30
      have hnew : delaysOK (failCycle w j) := by
        refine ⟨le_trans hd0 hstep, by rw [hdelay1]; exact min_le_right _ _, ?_, ?_⟩
        · rw [hlog1, reconnectDelays_append]
          rw [List.chain'_append]
          refine ⟨hchain, by simp [reconnectDelays], ?_⟩
          intro x hx y hy
          have hy2 : w.client.retryDelay = y := by
            simpa [reconnectDelays] using hy
          rw [← hy2]
          exact hbound x (mem_of_getLast?_eq hx)
        · intro d hdm
          rw [hlog1, reconnectDelays_append] at hdm
          rcases List.mem_append.1 hdm with hdm | hdm
          · exact le_trans (hbound d hdm) hstep
          · have : d = w.client.retryDelay := by
              simpa [reconnectDelays] using hdm
            rw [this]
            exact hstep
      obtain ⟨hA2, hcfg2, hd2⟩ :=
        ih (failCycle w j) (n + 1) hA1 (hcfg1.trans hcfg) hnew
          (fun x hx => hj x (List.mem_cons_of_mem _ hx))
      refine ⟨?_, hcfg2, hd2⟩
      rw [failRun]
      have : n + (js.length + 1) = (n + 1) + js.length := by omega
      rw [List.length_cons, this]
      exact hA2

/-- With maxRetries = 10, as long as the accumulated failures stay within the
limit every cycle schedules a retry and nothing is exhausted. -/
lemma failRun_bounded (w : World) (n : ℕ) (js : List ℚ) (hA : Active w n)
    (hcfg : w.cfg = cfgMax10)
    (hle : w.client.retryCount + js.length ≤ 10) :
    Active (failRun w js) (n + js.length) ∧
    (failRun w js).cfg = cfgMax10 ∧
    (failRun w js).client.retryCount = w.client.retryCount + js.length ∧
    exhaustedCount (failRun w js).log = exhaustedCount w.log := by
  induction js generalizing w n with
  | nil => exact ⟨hA, hcfg, rfl, rfl⟩
  | cons j js ih =>
      have hlt : retryLimitReached w.cfg.maxRetries w.client.retryCount = false := by
        rw [hcfg]
        simp only [cfgMax10, retryLimitReached]
        simp only [List.length_cons] at hle
        simp
        omega
      obtain ⟨hA1, hcfg1, hcount1, _, hlog1⟩ := failCycle_active w n j hA hlt
      have hle1 : (failCycle w j).client.retryCount + js.length ≤ 10 := by
        rw [hcount1]
        simp only [List.length_cons] at hle
        omega
      obtain ⟨hA2, hcfg2, hcount2, hex2⟩ :=
        ih (failCycle w j) (n + 1) hA1 (hcfg1.trans hcfg) hle1
      refine ⟨?_, hcfg2, ?_, ?_⟩
      · rw [failRun]
        have : n + (js.length + 1) = (n + 1) + js.length := by omega
        rw [List.length_cons, this]
        exact hA2
      · rw [failRun, hcount2, hcount1]
        simp only [List.length_cons]
        omega
      · rw [failRun, hex2, hlog1, exhaustedCount_append]
        simp [exhaustedCount]

/-! ## Claim C3: backoff monotonicity with cap -/

/-- C3: along any run of consecutive failed connection attempts of a
default-configuration client, with every jitter draw in the interval from 0
inclusive to 1000 exclusive, the delays announced for the retry timers are
non-decreasing and never exceed the 30000 ms cap. -/
theorem C3_backoff_monotone_and_capped (js : List ℚ)
    (hj : ∀ j ∈ js, 0 ≤ j ∧ j < 1000) :
    (reconnectDelays (failRun startDefault js).log).Chain' (· ≤ ·) ∧
    ∀ d ∈ reconnectDelays (failRun startDefault js).log, d ≤ 30000 := by
  have hA0 : Active startDefault 0 :=
    ⟨by decide, by decide, by decide, by decide, by decide⟩
  have hcfg0 : startDefault.cfg = defaultCfg := by decide
  have hlog0 : startDefault.log = [] := by decide
  have hd0 : delaysOK startDefault := by
    refine ⟨by decide, by decide, ?_, ?_⟩
    · rw [hlog0]
      exact List.chain'_nil
    · rw [hlog0]
      intro d hd
      simp [reconnectDelays] at hd
  obtain ⟨_, _, hfin⟩ := failRun_default_delays startDefault 0 js hA0 hcfg0 hd0
      (fun j hj2 => (hj j hj2).1)
  exact ⟨hfin.2.2.1, fun d hd => le_trans (hfin.2.2.2 d hd) hfin.2.1⟩

theorem C3_backoff_monotone_and_capped_witness :
    (∀ j ∈ ([0, 500] : List ℚ), 0 ≤ j ∧ j < 1000) ∧
    ((reconnectDelays (failRun startDefault [0, 500]).log).Chain' (· ≤ ·) ∧
      ∀ d ∈ reconnectDelays (failRun startDefault [0, 500]).log, d ≤ 30000) :=
  ⟨by decide, C3_backoff_monotone_and_capped [0, 500] (by decide)⟩

/-! ## Claim C4: retry exhaustion at maxRetries, unbounded by default -/

/-- The conclusion of claim C4.  With maxRetries = 10, a run of 11
consecutive failed attempts emits no maxRetriesExhausted during the first
ten failures, has emitted it exactly once after the eleventh, made exactly
11 attempts (the initial one plus 10 retries), and no continuation of
client-internal events ever makes a twelfth attempt or a second emission;
with the default configuration a failure run of any length emits nothing and
keeps retrying unboundedly, one attempt per failure. -/
def C4Concl (js js2 : List ℚ) (evs : List Ev) : Prop :=
  exhaustedCount (failRun startMax10 (js.take 10)).log = 0 ∧
  exhaustedCount (failRun startMax10 js).log = 1 ∧
  (failRun startMax10 js).sockets.length = 11 ∧
  (run (failRun startMax10 js) evs).sockets.length = 11 ∧
  exhaustedCount (run (failRun startMax10 js) evs).log = 1 ∧
  exhaustedCount (failRun startDefault js2).log = 0 ∧
  (failRun startDefault js2).sockets.length = js2.length + 1

/-- C4: maxRetriesExhausted fires exactly once, after the 10th failed retry,
and no 12th attempt is ever made; with the default options it never fires. -/
theorem C4_max_retries_exhaustion (js js2 : List ℚ) (evs : List Ev)
    (h11 : js.length = 11) (hevs : ∀ e ∈ evs, e ≠ Ev.appConnect) :
    C4Concl js js2 evs := by
  have hA0 : Active startMax10 0 :=
    ⟨by decide, by decide, by decide, by decide, by decide⟩
  have hcfg0 : startMax10.cfg = cfgMax10 := by decide
  have hcount0 : startMax10.client.retryCount = 0 := by decide
  have hex0 : exhaustedCount startMax10.log = 0 := by decide
  have htake : (js.take 10).length = 10 := by
    rw [List.length_take, h11]
    decide
  obtain ⟨hA10, hcfg10, hcount10, hex10⟩ :=
    failRun_bounded startMax10 0 (js.take 10) hA0 hcfg0 (by rw [hcount0, htake])
  set w10 := failRun startMax10 (js.take 10) with hw10
  have hc1 : exhaustedCount w10.log = 0 := by rw [hex10, hex0]
  have hcnt : w10.client.retryCount = 10 := by rw [hcount10, hcount0, htake]
  have hA10' : Active w10 10 := by
    have h := hA10
    rw [htake] at h
    simpa using h
  have hdrop : (js.drop 10).length = 1 := by rw [List.length_drop, h11]
  obtain ⟨j, hj⟩ := List.length_eq_one.1 hdrop
  have hsplit : failRun startMax10 js = failCycle w10 j := by
    conv_lhs => rw [← List.take_append_drop 10 js]
    rw [failRun_append, ← hw10, hj]
    rfl
  have hge : retryLimitReached w10.cfg.maxRetries w10.client.retryCount = true := by
    rw [hcfg10, hcnt]
    decide
  obtain ⟨hdead, hlen11, hlog11⟩ := failCycle_exhaust w10 10 j hA10' hge
  have hw10len : w10.sockets.length = 11 := by
    rw [hA10'.1]
    simp
  have hc2 : exhaustedCount (failRun startMax10 js).log = 1 := by
    rw [hsplit, hlog11, exhaustedCount_append, hc1]
    decide
  have hc3 : (failRun startMax10 js).sockets.length = 11 := by
    rw [hsplit, hlen11, hw10len]
  obtain ⟨hr1, hr2, _⟩ := deadW_run (failCycle w10 j) evs hdead hevs
  have hc4 : (run (failRun startMax10 js) evs).sockets.length = 11 := by
    rw [hsplit, hr1, hlen11, hw10len]
  have hc5 : exhaustedCount (run (failRun startMax10 js) evs).log = 1 := by
    rw [hsplit] at hc2 ⊢
    rw [hr2]
    exact hc2
  have hA0d : Active startDefault 0 :=
    ⟨by decide, by decide, by decide, by decide, by decide⟩
  have hex0d : exhaustedCount startDefault.log = 0 := by decide
  obtain ⟨hAd, _, hexd⟩ := failRun_default_count startDefault 0 js2 hA0d (by decide)
  have hc6 : exhaustedCount (failRun startDefault js2).log = 0 := by rw [hexd, hex0d]
  have hc7 : (failRun startDefault js2).sockets.length = js2.length + 1 := by
    rw [hAd.1]
    simp
  exact ⟨hc1, hc2, hc3, hc4, hc5, hc6, hc7⟩

theorem C4_max_retries_exhaustion_witness :
    C4Concl (List.replicate 11 0) [] [] :=
  C4_max_retries_exhaustion (List.replicate 11 0) [] [] (by decide) (by decide)

end ScreenMirroring
